import Mathlib

/-!
Verification development for the graph-primal-dual repository.

The definitions below shallowly embed the numeric core of the repository:
the fixed-iteration primal flow solver (`src/sparse_mcf_model.py`), the
flow-weight softmax normalization and the dual-cost computation
(`src/neighborhood_model.py` and `src/models/neighborhood_model.py`), the
cycle corrector, the score pairing, and the Python-level constructor and
local-variable behaviour of the model classes.  Rational numbers stand for
the exact real semantics of the tensor computations; `relu` is `max · 0`.
-/

namespace GraphPrimalDual

/-- Embeds `tf.nn.relu`: elementwise maximum with zero. -/
def relu (x : ℚ) : ℚ := max x 0

/-- Embeds `inflow = tf.sparse_reduce_sum(flow, axis=0)` from
`src/sparse_mcf_model.py`: the inflow of node `v` is the sum of the flow
entries on edges into `v`. -/
def inflow {V : ℕ} (flow : Fin V → Fin V → ℚ) (v : Fin V) : ℚ := ∑ u, flow u v

/-- Embeds the `body` function of the `tf.while_loop` in
`src/sparse_mcf_model.py` (lines 71-76): the adjusted inflow (excess) of `v`
is `relu(inflow v - demands v)`, and the new flow on edge `(v, u)` is the
flow weight `w v u` times the excess of `v` (the `V x 1` excess column
broadcasts across each row of the sparse weight tensor). -/
def mcfBody {V : ℕ} (w : Fin V → Fin V → ℚ) (demands : Fin V → ℚ)
    (flow : Fin V → Fin V → ℚ) : Fin V → Fin V → ℚ :=
  fun v u => w v u * relu (inflow flow v - demands v)

/-- Embeds the `tf.while_loop` of `src/sparse_mcf_model.py` (lines 78-84):
the loop condition is constantly true, so the body runs exactly
`maximum_iterations = flow_iters` times, starting from the initial flow
`flow = flow_weight_pred`. -/
def mcfSolve {V : ℕ} (w : Fin V → Fin V → ℚ) (demands : Fin V → ℚ) :
    ℕ → Fin V → Fin V → ℚ
  | 0 => w
  | n + 1 => mcfBody w demands (mcfSolve w demands n)

/-- A two-node strongly connected example graph: edges in both directions. -/
def exAdj : Fin 2 → Fin 2 → Bool := fun u v => decide (u ≠ v)

/-- Flow weights supported on `exAdj`: each row has a single out-edge, so the
row-stochastic weight on it is `1`. -/
def exW : Fin 2 → Fin 2 → ℚ := fun u v => if exAdj u v then 1 else 0

/-- An example demand vector summing to zero. -/
def exD : Fin 2 → ℚ := ![1, -1]

end GraphPrimalDual

namespace GraphPrimalDual

/-- C1: For every flow-weight matrix, demand vector, and configured iteration
count, the primal flow solver performs exactly `flow_iters` iterations of the
loop body (it is the `flow_iters`-fold iterate of the body, with no early
termination test), where each iteration computes the inflow of `v` as the sum
of incoming flow, the excess as `relu(inflow v - demands v)`, and sets the
flow on every allowed outgoing edge `(v, u)` to `w v u * excess v`, keeping
disallowed edges at zero. -/
theorem mcf_solver_fixed_iterations {V : ℕ} (adj : Fin V → Fin V → Bool)
    (w : Fin V → Fin V → ℚ) (demands : Fin V → ℚ)
    (hsupp : ∀ v u, adj v u = false → w v u = 0) :
    (∀ iters, mcfSolve w demands iters = (mcfBody w demands)^[iters] w)
    ∧ (∀ flow v u, mcfBody w demands flow v u
        = w v u * relu ((∑ x, flow x v) - demands v))
    ∧ (∀ iters v u, adj v u = false → mcfSolve w demands (iters + 1) v u = 0)
    ∧ (∀ iters v u, adj v u = true → mcfSolve w demands (iters + 1) v u
        = w v u * relu ((∑ x, mcfSolve w demands iters x v) - demands v)) := by
  refine ⟨?_, fun flow v u => rfl, ?_, fun iters v u _ => rfl⟩
  · intro iters
    induction iters with
    | zero => rfl
    | succ n ih =>
      rw [Function.iterate_succ_apply']
      show mcfBody w demands (mcfSolve w demands n) = _
      rw [ih]
  · intro iters v u h
    show w v u * relu (inflow (mcfSolve w demands iters) v - demands v) = 0
    rw [hsupp v u h, zero_mul]

/-- Witness for C1 at a concrete two-node instance. -/
theorem mcf_solver_fixed_iterations_witness :
    mcfSolve exW exD 2 = (mcfBody exW exD)^[2] exW
    ∧ mcfBody exW exD exW 0 0 = exW 0 0 * relu ((∑ x, exW x 0) - exD 0)
    ∧ mcfSolve exW exD 1 0 0 = 0
    ∧ mcfSolve exW exD 1 0 1
        = exW 0 1 * relu ((∑ x, mcfSolve exW exD 0 x 0) - exD 0) :=
  ⟨(mcf_solver_fixed_iterations exAdj exW exD (by decide)).1 2,
   (mcf_solver_fixed_iterations exAdj exW exD (by decide)).2.1 exW 0 0,
   (mcf_solver_fixed_iterations exAdj exW exD (by decide)).2.2.1 0 0 0 (by decide),
   (mcf_solver_fixed_iterations exAdj exW exD (by decide)).2.2.2 0 0 1 (by decide)⟩

/-- C7: if the flow weights are non-negative then every entry of the flow
matrix is non-negative after every iteration of the primal solver. -/
theorem flow_matrix_nonnegative {V : ℕ} (w : Fin V → Fin V → ℚ)
    (demands : Fin V → ℚ) (hw : ∀ v u, 0 ≤ w v u) :
    ∀ iters v u, 0 ≤ mcfSolve w demands iters v u := by
  intro iters
  induction iters with
  | zero => exact hw
  | succ n _ =>
    intro v u
    exact mul_nonneg (hw v u) (le_max_right _ 0)

/-- Witness for C7 at a concrete two-node instance. -/
theorem flow_matrix_nonnegative_witness : 0 ≤ mcfSolve exW exD 3 1 0 :=
  flow_matrix_nonnegative exW exD (by decide) 3 1 0

/-- Embeds `dual_diff = dual_vars - tf.transpose(dual_vars)` from
`src/neighborhood_model.py` (line 108): the dense matrix of potential
differences. -/
def dualDiff {V : ℕ} (p : Fin V → ℚ) : Fin V → Fin V → ℚ := fun u v => p u - p v

/-- Embeds `dual_flows = adj * tf.nn.relu(cost_fn.inv_derivative(dual_diff))`
from `src/neighborhood_model.py` (line 109): the relu of the inverse marginal
cost of the potential difference, masked to the sparsity pattern of the
adjacency matrix. -/
def dualFlows {V : ℕ} (invD : ℚ → ℚ) (adj : Fin V → Fin V → Bool)
    (p : Fin V → ℚ) : Fin V → Fin V → ℚ :=
  fun u v => if adj u v = true then relu (invD (dualDiff p u v)) else 0

/-- The index pairs stored by a sparse tensor with the adjacency pattern. -/
def edgeSet {V : ℕ} (adj : Fin V → Fin V → Bool) : Finset (Fin V × Fin V) :=
  Finset.univ.filter (fun e => adj e.1 e.2 = true)

/-- Embeds the dual cost of `src/neighborhood_model.py` (lines 111-114):
`diff_values = (dual_flows * dual_diff).values`,
`dual_flow_cost = cost_fn.apply(dual_flows.values) - diff_values`, and
`dual_cost = tf.reduce_sum(dual_flow_cost) - tf.reduce_sum(dual_vars * demands)`,
where the `.values` sums range over the stored (adjacency) index pairs. -/
def dualCost {V : ℕ} (c invD : ℚ → ℚ) (adj : Fin V → Fin V → Bool)
    (p d : Fin V → ℚ) : ℚ :=
  (∑ e ∈ edgeSet adj,
      (c (dualFlows invD adj p e.1 e.2)
        - dualFlows invD adj p e.1 e.2 * dualDiff p e.1 e.2))
    - ∑ v, p v * d v

/-- Embeds `flow_cost = tf.reduce_sum(cost_fn.apply(flow.values))`: the cost
function applied to the flow values stored on the adjacency pattern. -/
def flowCost {V : ℕ} (c : ℚ → ℚ) (adj : Fin V → Fin V → Bool)
    (w : Fin V → Fin V → ℚ) (d : Fin V → ℚ) (iters : ℕ) : ℚ :=
  ∑ e ∈ edgeSet adj, c (mcfSolve w d iters e.1 e.2)

/-- C4: for every assignment of node potentials, the dual computation forms
`dual_diff u v = p u - p v`, masks `relu (invD dual_diff)` to existing edges,
and returns the sum over existing edges of
`cost (dual_flow) - dual_diff * dual_flow` minus the sum over nodes of
`potential * demand`. -/
theorem dual_cost_formula {V : ℕ} (c invD : ℚ → ℚ) (adj : Fin V → Fin V → Bool)
    (p d : Fin V → ℚ) :
    (∀ u v, dualDiff p u v = p u - p v)
    ∧ (∀ u v, dualFlows invD adj p u v
        = if adj u v = true then relu (invD (p u - p v)) else 0)
    ∧ dualCost c invD adj p d
      = (∑ u, ∑ v, if adj u v = true
            then c (relu (invD (p u - p v)))
              - (p u - p v) * relu (invD (p u - p v))
            else 0)
        - ∑ v, p v * d v := by
  refine ⟨fun u v => rfl, fun u v => rfl, ?_⟩
  unfold dualCost edgeSet
  rw [Finset.sum_filter, Fintype.sum_prod_type]
  congr 1
  refine Finset.sum_congr rfl fun u _ => Finset.sum_congr rfl fun v _ => ?_
  by_cases h : adj u v = true
  · simp only [h, if_true, dualFlows, dualDiff]
    ring
  · simp [h]

/-- Half of the sum-minus-absolute-difference of two rationals is their
minimum; this is the identity the sparse cycle corrector relies on. -/
theorem half_add_sub_abs (a b : ℚ) : (1 / 2 : ℚ) * ((a + b) - |a - b|) = min a b := by
  rcases le_total a b with h | h
  · rw [abs_of_nonpos (by linarith), min_eq_left h]
    ring
  · rw [abs_of_nonneg (by linarith), min_eq_right h]
    ring

/-- Embeds `flow_add = tf.sparse.add(flow, flow_transpose)` from
`src/models/neighborhood_model.py` (line 118). -/
def flowAdd {V : ℕ} (flow : Fin V → Fin V → ℚ) : Fin V → Fin V → ℚ :=
  fun u v => flow u v + flow v u

/-- Embeds `flow_sub_abs = tf.abs(sparse_subtract(flow, flow_transpose))`
from `src/models/neighborhood_model.py` (line 119). -/
def flowSubAbs {V : ℕ} (flow : Fin V → Fin V → ℚ) : Fin V → Fin V → ℚ :=
  fun u v => |flow u v - flow v u|

/-- Embeds `min_flow = sparse_subtract(flow_add, flow_sub_abs)` from
`src/models/neighborhood_model.py` (line 120); this equals twice the
elementwise minimum of the flow and its transpose. -/
def minFlow {V : ℕ} (flow : Fin V → Fin V → ℚ) : Fin V → Fin V → ℚ :=
  fun u v => flowAdd flow u v - flowSubAbs flow u v

/-- Embeds `flow = tf.sparse.add(flow, sparse_scalar_mul(min_flow, -0.5))`
from `src/models/neighborhood_model.py` (line 121): the sparse-mode cycle
correction. -/
def sparseCycleCorrect {V : ℕ} (flow : Fin V → Fin V → ℚ) : Fin V → Fin V → ℚ :=
  fun u v => flow u v + (-(1 / 2) : ℚ) * minFlow flow u v

/-- Embeds `flow = flow - adj * tf.math.minimum(flow, tf.transpose(flow))`
from `src/models/neighborhood_model.py` (line 139): the dense-mode cycle
correction. -/
def denseCycleCorrect {V : ℕ} (adj : Fin V → Fin V → Bool)
    (flow : Fin V → Fin V → ℚ) : Fin V → Fin V → ℚ :=
  fun u v => flow u v - (if adj u v = true then (1 : ℚ) else 0) * min (flow u v) (flow v u)

/-- C3: the sparse cycle corrector subtracts `min (flow u v) (flow v u)` from
both directions (via the `0.5 * (a + b - |a - b|)` formula), and afterwards
every mutual edge pair has `min (flow u v) (flow v u) = 0`; the dense
corrector satisfies the same postcondition on mutual edge pairs. -/
theorem cycle_corrector_removes_reciprocal_flow {V : ℕ}
    (adj : Fin V → Fin V → Bool) (flow : Fin V → Fin V → ℚ) (u v : Fin V)
    (h1 : adj u v = true) (h2 : adj v u = true) :
    (∀ a b, sparseCycleCorrect flow a b = flow a b - min (flow a b) (flow b a))
    ∧ min (sparseCycleCorrect flow u v) (sparseCycleCorrect flow v u) = 0
    ∧ min (denseCycleCorrect adj flow u v) (denseCycleCorrect adj flow v u) = 0 := by
  have key : ∀ a b, sparseCycleCorrect flow a b
      = flow a b - min (flow a b) (flow b a) := by
    intro a b
    unfold sparseCycleCorrect minFlow flowAdd flowSubAbs
    rw [← half_add_sub_abs (flow a b) (flow b a)]
    ring
  refine ⟨key, ?_, ?_⟩
  · rw [key u v, key v u, min_comm (flow v u) (flow u v), min_sub_sub_right,
      sub_self]
  · unfold denseCycleCorrect
    rw [if_pos h1, if_pos h2, one_mul, one_mul,
      min_comm (flow v u) (flow u v), min_sub_sub_right, sub_self]

/-- A concrete flow matrix with reciprocal flow on the mutual pair (0, 1). -/
def exFlow : Fin 2 → Fin 2 → ℚ := ![![0, 3], ![1, 0]]

/-- Witness for C3 at a concrete two-node instance. -/
theorem cycle_corrector_removes_reciprocal_flow_witness :
    min (sparseCycleCorrect exFlow 0 1) (sparseCycleCorrect exFlow 1 0) = 0
    ∧ min (denseCycleCorrect exAdj exFlow 0 1) (denseCycleCorrect exAdj exFlow 1 0) = 0 :=
  ⟨(cycle_corrector_removes_reciprocal_flow exAdj exFlow 0 1 (by decide)
      (by decide)).2.1,
   (cycle_corrector_removes_reciprocal_flow exAdj exFlow 0 1 (by decide)
      (by decide)).2.2⟩

/-- Embeds `pred_weights = pred_weights * tf.transpose(pred_weights)` from
`src/neighborhood_model.py` (lines 78-79): the edge score is the product of
the two endpoint scores. -/
def pairScores {V : ℕ} (s : Fin V → ℚ) : Fin V → Fin V → ℚ :=
  fun u v => s u * s v

/-- Embeds `pred_weights = adj * tf.transpose(node_weights)` from
`src/models/neighborhood_model.py` (lines 87 and 97): the combined score on
edge `(u, v)` is the adjacency indicator times the target node score alone. -/
def modelsPairScores {V : ℕ} (adj : Fin V → Fin V → Bool) (s : Fin V → ℚ) :
    Fin V → Fin V → ℚ :=
  fun u v => (if adj u v = true then (1 : ℚ) else 0) * s v

/-- A concrete score vector with distinct endpoint scores. -/
def exScores : Fin 2 → ℚ := ![0, 1]

/-- The complete adjacency relation on two nodes. -/
def exAdjFull : Fin 2 → Fin 2 → Bool := fun _ _ => true

/-- Counterexample to C8: in the `src/models/neighborhood_model.py` variant
the combined score is not symmetric even with every edge allowed: with
scores `(0, 1)` the score of edge `(0, 1)` is `1` while that of `(1, 0)`
is `0`. -/
theorem models_pairing_asymmetric :
    modelsPairScores exAdjFull exScores 0 1 ≠ modelsPairScores exAdjFull exScores 1 0 := by
  norm_num [modelsPairScores, exAdjFull, exScores]

/-- C8 (amended): the score pairing of `src/neighborhood_model.py`, the
product of the two endpoint scores, is symmetric; the variant in
`src/models/neighborhood_model.py` instead combines the adjacency indicator
with the target endpoint score alone, which is not symmetric in general. -/
theorem pair_scores_symmetric {V : ℕ} (s : Fin V → ℚ) (u v : Fin V) :
    pairScores s u v = pairScores s v u
    ∧ (∀ adj : Fin V → Fin V → Bool,
        modelsPairScores adj s u v = (if adj u v = true then (1 : ℚ) else 0) * s v) :=
  ⟨mul_comm (s u) (s v), fun _ => rfl⟩

/-- The sparse-tensor sum over stored entries rewritten as a masked double
sum over all index pairs. -/
theorem edge_sum_eq_masked {V : ℕ} (adj : Fin V → Fin V → Bool)
    (f : Fin V → Fin V → ℚ) :
    (∑ e ∈ edgeSet adj, f e.1 e.2)
      = ∑ u, ∑ v, if adj u v = true then f u v else 0 := by
  unfold edgeSet
  rw [Finset.sum_filter, Fintype.sum_prod_type]

/-- The flow cost rewritten as a masked double sum. -/
theorem flowCost_masked {V : ℕ} (c : ℚ → ℚ) (adj : Fin V → Fin V → Bool)
    (w : Fin V → Fin V → ℚ) (d : Fin V → ℚ) (iters : ℕ) :
    flowCost c adj w d iters
      = ∑ u, ∑ v, if adj u v = true then c (mcfSolve w d iters u v) else 0 :=
  edge_sum_eq_masked adj fun u v => c (mcfSolve w d iters u v)

/-- The dual cost rewritten as a masked double sum. -/
theorem dualCost_masked {V : ℕ} (c invD : ℚ → ℚ) (adj : Fin V → Fin V → Bool)
    (p d : Fin V → ℚ) :
    dualCost c invD adj p d
      = (∑ u, ∑ v, if adj u v = true
            then c (dualFlows invD adj p u v)
              - dualFlows invD adj p u v * dualDiff p u v
            else 0)
        - ∑ v, p v * d v := by
  unfold dualCost
  rw [edge_sum_eq_masked adj fun u v =>
    c (dualFlows invD adj p u v) - dualFlows invD adj p u v * dualDiff p u v]

/-- Modelled from the spec: the `CostFunction` contract of section 4.1 (the
cost-function module is not under `src/`): a convex per-edge cost with
`apply 0 = 0`, here the quadratic variant. -/
def sqCost (x : ℚ) : ℚ := x ^ 2

/-- Modelled from the spec: the inverse of the marginal cost of `sqCost`
(the derivative is `2 * x`, so the inverse derivative is `y / 2`). -/
def sqInvDeriv (y : ℚ) : ℚ := y / 2

/-- The per-edge dual term at the relu of the inverse marginal cost is the
minimum of `sqCost x - dff * x` over non-negative `x`. -/
theorem sq_dual_term_le (dff x : ℚ) (hx : 0 ≤ x) :
    sqCost (relu (sqInvDeriv dff)) - dff * relu (sqInvDeriv dff)
      ≤ sqCost x - dff * x := by
  unfold sqCost sqInvDeriv relu
  rcases le_total dff 0 with h | h
  · rw [max_eq_right (by linarith : dff / 2 ≤ 0)]
    nlinarith [sq_nonneg x, mul_nonneg (neg_nonneg.mpr h) hx]
  · rw [max_eq_left (by linarith : 0 ≤ dff / 2)]
    nlinarith [sq_nonneg (x - dff / 2)]

/-- C5 (amended): weak duality holds against feasible flows: for every
adjacency, potentials, demands and non-negative flow `g` supported on the
existing edges that satisfies conservation (inflow minus outflow equals
demand at every node), the computed dual cost is at most the primal cost of
`g`.  The flow computed by the fixed-iteration solver need not be feasible,
so this does not bound the computed flow cost (see the counterexample). -/
theorem weak_duality_feasible_flows {V : ℕ} (adj : Fin V → Fin V → Bool)
    (p d : Fin V → ℚ) (g : Fin V → Fin V → ℚ)
    (hg0 : ∀ u v, 0 ≤ g u v)
    (hsupp : ∀ u v, adj u v = false → g u v = 0)
    (hcons : ∀ v, (∑ u, g u v) - (∑ u, g v u) = d v) :
    dualCost sqCost sqInvDeriv adj p d ≤ ∑ u, ∑ v, sqCost (g u v) := by
  rw [dualCost_masked]
  have claim1 : (∑ u, ∑ v, if adj u v = true
        then sqCost (dualFlows sqInvDeriv adj p u v)
          - dualFlows sqInvDeriv adj p u v * dualDiff p u v
        else 0)
      ≤ ∑ u, ∑ v, (sqCost (g u v) - dualDiff p u v * g u v) := by
    refine Finset.sum_le_sum fun u _ => Finset.sum_le_sum fun v _ => ?_
    cases hb : adj u v with
    | true =>
      rw [if_pos rfl]
      unfold dualFlows
      rw [hb, if_pos rfl,
        mul_comm (relu (sqInvDeriv (dualDiff p u v))) (dualDiff p u v)]
      exact sq_dual_term_le (dualDiff p u v) (g u v) (hg0 u v)
    | false =>
      rw [if_neg (by simp), hsupp u v hb]
      norm_num [sqCost]
  have claim2 : (∑ u, ∑ v, dualDiff p u v * g u v) = -∑ v, p v * d v := by
    have expand : ∀ u v : Fin V, dualDiff p u v * g u v
        = p u * g u v - p v * g u v := by
      intro u v
      unfold dualDiff
      ring
    calc (∑ u, ∑ v, dualDiff p u v * g u v)
        = ∑ u, ∑ v, (p u * g u v - p v * g u v) := by
          exact Finset.sum_congr rfl fun u _ =>
            Finset.sum_congr rfl fun v _ => expand u v
      _ = (∑ u, ∑ v, p u * g u v) - ∑ u, ∑ v, p v * g u v := by
          rw [← Finset.sum_sub_distrib]
          exact Finset.sum_congr rfl fun u _ => Finset.sum_sub_distrib
      _ = (∑ u, p u * ∑ v, g u v) - ∑ v, p v * ∑ u, g u v := by
          rw [Finset.sum_comm (f := fun u v => p v * g u v)]
          exact congrArg₂ (· - ·)
            (Finset.sum_congr rfl fun u _ => (Finset.mul_sum _ _ _).symm)
            (Finset.sum_congr rfl fun v _ => (Finset.mul_sum _ _ _).symm)
      _ = ∑ w, p w * ((∑ v, g w v) - ∑ u, g u w) := by
          rw [← Finset.sum_sub_distrib]
          exact Finset.sum_congr rfl fun w _ => (mul_sub (p w) _ _).symm
      _ = ∑ w, p w * (-d w) := by
          refine Finset.sum_congr rfl fun w _ => ?_
          have hw := hcons w
          have : (∑ v, g w v) - ∑ u, g u w = -d w := by linarith
          rw [this]
      _ = -∑ w, p w * d w := by
          rw [← Finset.sum_neg_distrib]
          exact Finset.sum_congr rfl fun w _ => mul_neg (p w) (d w)
  have claim3 : (∑ u, ∑ v, (sqCost (g u v) - dualDiff p u v * g u v))
      = (∑ u, ∑ v, sqCost (g u v)) + ∑ v, p v * d v := by
    have : (∑ u, ∑ v, (sqCost (g u v) - dualDiff p u v * g u v))
        = (∑ u, ∑ v, sqCost (g u v)) - ∑ u, ∑ v, dualDiff p u v * g u v := by
      rw [← Finset.sum_sub_distrib]
      exact Finset.sum_congr rfl fun u _ => Finset.sum_sub_distrib
    rw [this, claim2]
    ring
  linarith

/-- The three-node cycle graph `0 → 1 → 2 → 0`. -/
def adj3 : Fin 3 → Fin 3 → Bool := fun u v => decide (v.val = (u.val + 1) % 3)

/-- Row-stochastic flow weights on `adj3`: each row has exactly one allowed
out-edge, so the sparse softmax assigns it weight `1` for any scores. -/
def w3 : Fin 3 → Fin 3 → ℚ := fun u v => if adj3 u v = true then 1 else 0

/-- A demand vector on three nodes summing to zero. -/
def d3 : Fin 3 → ℚ := fun v => if v.val = 0 then 3 else if v.val = 1 then -3 else 0

/-- A potential assignment on three nodes. -/
def p3 : Fin 3 → ℚ := fun v => if v.val = 0 then 0 else if v.val = 1 then 12 else 6

/-- Counterexample to C5: on the three-node cycle with demands `(3, -3, 0)`
(summing to zero), row-stochastic weights, one solver iteration and the
quadratic cost, the computed flow cost is `17` while the dual cost at the
potentials `(0, 12, 6)` is `18`: the computed dual cost exceeds the computed
flow cost and the training signal `flow_cost - dual_cost` is negative. -/
theorem dual_cost_exceeds_flow_cost :
    (∑ v, d3 v) = 0
    ∧ (∑ v, w3 0 v) = 1 ∧ (∑ v, w3 1 v) = 1 ∧ (∑ v, w3 2 v) = 1
    ∧ flowCost sqCost adj3 w3 d3 1 = 17
    ∧ dualCost sqCost sqInvDeriv adj3 p3 d3 = 18
    ∧ flowCost sqCost adj3 w3 d3 1 < dualCost sqCost sqInvDeriv adj3 p3 d3 := by
  have hsolve : mcfSolve w3 d3 1 = mcfBody w3 d3 w3 := rfl
  have hflow : flowCost sqCost adj3 w3 d3 1 = 17 := by
    rw [flowCost_masked, hsolve]
    simp only [Fin.sum_univ_three, mcfBody, inflow, relu, sqCost, adj3, w3, d3]
    norm_num [max_def, Fin.val_zero, Fin.val_one, Fin.val_two]
  have hdual : dualCost sqCost sqInvDeriv adj3 p3 d3 = 18 := by
    rw [dualCost_masked]
    norm_num [dualFlows, dualDiff, relu, max_def, sqCost, sqInvDeriv, adj3,
      p3, d3, Fin.sum_univ_three]
  refine ⟨by norm_num [d3, Fin.sum_univ_three], ?_, ?_, ?_, hflow, hdual, ?_⟩
  · simp only [Fin.sum_univ_three, w3, adj3]
    norm_num [Fin.val_zero, Fin.val_one, Fin.val_two]
  · simp only [Fin.sum_univ_three, w3, adj3]
    norm_num [Fin.val_zero, Fin.val_one, Fin.val_two]
  · simp only [Fin.sum_univ_three, w3, adj3]
    norm_num [Fin.val_zero, Fin.val_one, Fin.val_two]
  · rw [hflow, hdual]
    norm_num

/-- A feasible flow for the three-node counterexample instance: route three
units along `1 → 2 → 0`. -/
def g3 : Fin 3 → Fin 3 → ℚ := fun u v => if u.val = 0 then 0 else 3 * w3 u v

/-- Witness for the amended C5 at the three-node instance: `g3` is feasible
for demands `d3` and the dual cost is bounded by its primal cost. -/
theorem weak_duality_feasible_flows_witness :
    dualCost sqCost sqInvDeriv adj3 p3 d3 ≤ ∑ u, ∑ v, sqCost (g3 u v) :=
  weak_duality_feasible_flows adj3 p3 d3 g3
    (by
      intro u v
      fin_cases u <;> fin_cases v <;> norm_num [g3, w3, adj3])
    (by
      intro u v h
      fin_cases u <;> fin_cases v <;> simp_all [g3, w3, adj3])
    (by
      intro v
      fin_cases v <;> norm_num [g3, w3, adj3, d3, Fin.sum_univ_three])

/-- Modelled from the spec: the masking constant `BIG_NUMBER` imported from
the missing `constants` module; the spec says disallowed dense edges are
masked "to -∞" and the code uses a large finite constant. -/
noncomputable def BIG_NUMBER : ℝ := 10 ^ 9

/-- Embeds `weights = (-BIG_NUMBER * (1.0 - adj)) + pred_weights` from
`src/neighborhood_model.py` (line 86): the dense additive mask applied to
the combined scores before the softmax. -/
noncomputable def maskedWeights {V : ℕ} (B : ℝ) (adj : Fin V → Fin V → Bool)
    (s : Fin V → Fin V → ℝ) : Fin V → Fin V → ℝ :=
  fun v u => -B * (1 - (if adj v u = true then (1 : ℝ) else 0)) + s v u

/-- Embeds `tf.nn.softmax(weights, axis=-1)` from
`src/neighborhood_model.py` (line 87): rowwise exponential normalization
over all columns. -/
noncomputable def denseSoftmax {V : ℕ} (w : Fin V → Fin V → ℝ) :
    Fin V → Fin V → ℝ :=
  fun v u => Real.exp (w v u) / ∑ x, Real.exp (w v x)

/-- Embeds `tf.sparse.softmax(adj * pred_weights)` from
`src/neighborhood_model.py` (line 83): rowwise exponential normalization
over the stored (allowed) entries only; entries outside the sparsity
pattern do not exist and read back as zero. -/
noncomputable def sparseSoftmax {V : ℕ} (adj : Fin V → Fin V → Bool)
    (w : Fin V → Fin V → ℝ) : Fin V → Fin V → ℝ :=
  fun v u => if adj v u = true
    then Real.exp (w v u) / ∑ x, if adj v x = true then Real.exp (w v x) else 0
    else 0

/-- Every row of the dense softmax sums to one. -/
theorem denseSoftmax_row_sum {V : ℕ} (w : Fin V → Fin V → ℝ) (v : Fin V) :
    (∑ u, denseSoftmax w v u) = 1 := by
  unfold denseSoftmax
  rw [← Finset.sum_div]
  exact div_self (ne_of_gt (Finset.sum_pos (fun i _ => Real.exp_pos _)
    ⟨v, Finset.mem_univ v⟩))

/-- The sparse softmax denominator of a row with at least one allowed
out-edge is positive. -/
theorem sparseSoftmax_denom_pos {V : ℕ} (adj : Fin V → Fin V → Bool)
    (w : Fin V → Fin V → ℝ) (v : Fin V) (h : ∃ u, adj v u = true) :
    0 < ∑ x, if adj v x = true then Real.exp (w v x) else 0 := by
  obtain ⟨u, hu⟩ := h
  refine Finset.sum_pos' (fun i _ => ?_) ⟨u, Finset.mem_univ u, ?_⟩
  · split
    · exact le_of_lt (Real.exp_pos _)
    · exact le_refl 0
  · rw [if_pos hu]
    exact Real.exp_pos _

/-- C2 (amended): every row of the normalized flow-weight matrix belonging
to a node with at least one allowed outgoing edge sums to one in both
modes, and in sparse mode every entry on a disallowed edge is zero; in
dense mode disallowed entries are masked additively and stay positive, so
they are only approximately zero (see the counterexample). -/
theorem flow_weight_normalization_rows {V : ℕ} (adj : Fin V → Fin V → Bool)
    (w s : Fin V → Fin V → ℝ) (B : ℝ) (v : Fin V)
    (h : ∃ u, adj v u = true) :
    (∑ u, sparseSoftmax adj w v u) = 1
    ∧ (∀ u, adj v u = false → sparseSoftmax adj w v u = 0)
    ∧ (∑ u, denseSoftmax (maskedWeights B adj s) v u) = 1 := by
  refine ⟨?_, ?_, denseSoftmax_row_sum _ v⟩
  · unfold sparseSoftmax
    have hZ := sparseSoftmax_denom_pos adj w v h
    have step : ∀ u : Fin V,
        (if adj v u = true
          then Real.exp (w v u) / ∑ x, if adj v x = true then Real.exp (w v x) else 0
          else 0)
        = (if adj v u = true then Real.exp (w v u) else 0)
            / ∑ x, if adj v x = true then Real.exp (w v x) else 0 := by
      intro u
      split
      · rfl
      · rw [zero_div]
    rw [Finset.sum_congr rfl fun u _ => step u, ← Finset.sum_div]
    exact div_self (ne_of_gt hZ)
  · intro u hu
    unfold sparseSoftmax
    rw [hu]
    simp

/-- Witness for C2 (amended) on the two-node graph with both edges. -/
theorem flow_weight_normalization_rows_witness :
    (∑ u, sparseSoftmax exAdj (fun _ _ => (0 : ℝ)) 0 u) = 1
    ∧ sparseSoftmax exAdj (fun _ _ => (0 : ℝ)) 0 0 = 0
    ∧ (∑ u, denseSoftmax (maskedWeights BIG_NUMBER exAdj (fun _ _ => (0 : ℝ))) 0 u) = 1 :=
  ⟨(flow_weight_normalization_rows exAdj (fun _ _ => 0) (fun _ _ => 0)
      BIG_NUMBER 0 ⟨1, by decide⟩).1,
   (flow_weight_normalization_rows exAdj (fun _ _ => 0) (fun _ _ => 0)
      BIG_NUMBER 0 ⟨1, by decide⟩).2.1 0 (by decide),
   (flow_weight_normalization_rows exAdj (fun _ _ => 0) (fun _ _ => 0)
      BIG_NUMBER 0 ⟨1, by decide⟩).2.2⟩

/-- Counterexample to C2: in dense mode the entry on the disallowed edge
`(0, 0)` of the two-node graph is not zero after normalization: the additive
`-BIG_NUMBER` mask leaves a positive exponential. -/
theorem dense_disallowed_entry_nonzero :
    exAdj 0 0 = false
    ∧ denseSoftmax (maskedWeights BIG_NUMBER exAdj (fun _ _ => (0 : ℝ))) 0 0 ≠ 0 := by
  refine ⟨by decide, ne_of_gt ?_⟩
  exact div_pos (Real.exp_pos _)
    (Finset.sum_pos (fun i _ => Real.exp_pos _) ⟨0, Finset.mem_univ 0⟩)

/-- C6 (amended): a node with zero allowed outgoing edges yields an all-zero
row of the flow-weight matrix in sparse mode, with no division by zero and
no error; in dense mode the softmax instead produces a strictly positive
row summing to one (a non-zero fallback distribution). -/
theorem no_out_edge_row {V : ℕ} (adj : Fin V → Fin V → Bool)
    (w s : Fin V → Fin V → ℝ) (B : ℝ) (v : Fin V)
    (h : ∀ u, adj v u = false) :
    (∀ u, sparseSoftmax adj w v u = 0)
    ∧ (∑ u, denseSoftmax (maskedWeights B adj s) v u) = 1
    ∧ (∀ u, 0 < denseSoftmax (maskedWeights B adj s) v u) := by
  refine ⟨?_, denseSoftmax_row_sum _ v, fun u => ?_⟩
  · intro u
    unfold sparseSoftmax
    rw [h u]
    simp
  · exact div_pos (Real.exp_pos _)
      (Finset.sum_pos (fun i _ => Real.exp_pos _) ⟨v, Finset.mem_univ v⟩)

/-- A two-node adjacency whose row 0 has no allowed outgoing edges. -/
def noOutAdj : Fin 2 → Fin 2 → Bool := fun v u => decide (v.val = 1 ∧ u.val = 0)

/-- Witness for C6 (amended) on a row with no allowed outgoing edges. -/
theorem no_out_edge_row_witness :
    sparseSoftmax noOutAdj (fun _ _ => (0 : ℝ)) 0 1 = 0
    ∧ (∑ u, denseSoftmax (maskedWeights BIG_NUMBER noOutAdj (fun _ _ => (0 : ℝ))) 0 u) = 1 :=
  ⟨(no_out_edge_row noOutAdj (fun _ _ => 0) (fun _ _ => 0) BIG_NUMBER 0
      (by decide)).1 1,
   (no_out_edge_row noOutAdj (fun _ _ => 0) (fun _ _ => 0) BIG_NUMBER 0
      (by decide)).2.1⟩

/-- Counterexample to C6: in dense mode the row of a node with zero allowed
outgoing edges is not all-zero: its entries are a positive softmax fallback
distribution. -/
theorem dense_no_out_edge_row_nonzero :
    noOutAdj 0 0 = false ∧ noOutAdj 0 1 = false
    ∧ denseSoftmax (maskedWeights BIG_NUMBER noOutAdj (fun _ _ => (0 : ℝ))) 0 0 ≠ 0 := by
  refine ⟨by decide, by decide, ne_of_gt ?_⟩
  exact div_pos (Real.exp_pos _)
    (Finset.sum_pos (fun i _ => Real.exp_pos _) ⟨0, Finset.mem_univ 0⟩)

/-- A fragment of Python values: strings, numbers and string-keyed
dictionaries, enough to embed the model constructors. -/
inductive PyVal where
  | str : String → PyVal
  | num : ℚ → PyVal
  | dict : List (String × PyVal) → PyVal

/-- Python subscripting `value[key]` with a string key: succeeds on a
dictionary containing the key and raises a `TypeError` on a string
receiver (`string indices must be integers`). -/
def pySubscript : PyVal → String → Except String PyVal
  | PyVal.dict kvs, key =>
    match kvs.find? (fun kv => kv.1 == key) with
    | some kv => Except.ok kv.2
    | none => Except.error ("KeyError")
  | PyVal.str _, _ => Except.error ("string indices must be integers")
  | PyVal.num _, _ => Except.error ("TypeError")

/-- The attributes `Model.__init__` sets before any `build` call. -/
structure ModelState where
  name : PyVal
  params : PyVal
  learning_rate : PyVal

/-- Embeds `Model.__init__(self, name, params)` from `src/base_model.py`
(lines 10-16): it binds its first positional argument to `self.name` and
its second to `self.params`, then builds the optimizer from
`params['learning_rate']`, propagating any exception. -/
def modelInit (name params : PyVal) : Except String ModelState :=
  match pySubscript params "learning_rate" with
  | Except.ok lr => Except.ok { name := name, params := params, learning_rate := lr }
  | Except.error e => Except.error e

/-- Embeds `NeighborhoodModel.__init__` from `src/neighborhood_model.py`
(lines 12-13): `super().__init__(params, name)` passes the parameter
dictionary and the default name string positionally, in that order, into
`Model.__init__(self, name, params)`. -/
def neighborhoodModelInit (params : PyVal) : Except String ModelState :=
  modelInit params (PyVal.str "neighborhood-model")

/-- Embeds `SparseMCFModel.__init__` from `src/sparse_mcf_model.py`
(lines 10-11), with the same positional swap. -/
def sparseMCFModelInit (params : PyVal) : Except String ModelState :=
  modelInit params (PyVal.str "sparse-mcf-model")

/-- C9: for every parameter dictionary, constructing `NeighborhoodModel` or
`SparseMCFModel` raises before `build` is ever reached: the swapped
positional call makes the base constructor subscript the name string with
`'learning_rate'`, a `TypeError`; and whenever the base constructor does
succeed it has bound its first argument to `self.name` and its second to
`self.params`, so the swapped call binds the dictionary to `self.name` and
the name string to `self.params`. -/
theorem constructor_swapped_arguments :
    (∀ params, neighborhoodModelInit params
      = Except.error ("string indices must be integers"))
    ∧ (∀ params, sparseMCFModelInit params
      = Except.error ("string indices must be integers"))
    ∧ (∀ n p st, modelInit n p = Except.ok st → st.name = n ∧ st.params = p) := by
  refine ⟨fun params => rfl, fun params => rfl, fun n p st h => ?_⟩
  unfold modelInit at h
  cases hs : pySubscript p "learning_rate" with
  | ok lr =>
    rw [hs] at h
    cases h
    exact ⟨rfl, rfl⟩
  | error e =>
    rw [hs] at h
    cases h

/-- An example parameter dictionary containing a learning rate. -/
def okParams : PyVal := PyVal.dict [("learning_rate", PyVal.num 1)]

/-- Witness for C9: the constructors fail on a concrete well-formed
parameter dictionary, while a correctly ordered base call binds the
attributes as stated. -/
theorem constructor_swapped_arguments_witness :
    neighborhoodModelInit okParams
      = Except.error ("string indices must be integers")
    ∧ sparseMCFModelInit okParams
      = Except.error ("string indices must be integers")
    ∧ ((PyVal.str "m" : PyVal) = PyVal.str "m"
        ∧ (okParams = okParams)) :=
  ⟨constructor_swapped_arguments.1 okParams,
   constructor_swapped_arguments.2.1 okParams,
   constructor_swapped_arguments.2.2 (PyVal.str "m") okParams
     { name := PyVal.str "m", params := okParams, learning_rate := PyVal.num 1 }
     rfl⟩

/-- The locals of `NeighborhoodModel.build` relevant to the output-ops
list: `flow_weight_pred` is assigned in both branches of the sparsity
conditional, `weights` only in the dense branch
(`src/neighborhood_model.py` lines 82-88). -/
structure BuildLocals (τ : Type) where
  flow_weight_pred : τ
  weights : Option τ

/-- Embeds the sparsity conditional of `NeighborhoodModel.build`
(`src/neighborhood_model.py` lines 82-88): in sparse mode only
`flow_weight_pred` is assigned; in dense mode the intermediate `weights`
is assigned as well. -/
def neighborhoodBuildLocals {τ : Type} (sparseMode : Bool)
    (sparseNormalized denseMasked denseNormalized : τ) : BuildLocals τ :=
  if sparseMode then
    { flow_weight_pred := sparseNormalized, weights := none }
  else
    { flow_weight_pred := denseNormalized, weights := some denseMasked }

/-- Reading a Python local: an unassigned local raises
`UnboundLocalError: local variable referenced before assignment`. -/
def readLocal {τ : Type} : Option τ → Except String τ
  | some v => Except.ok v
  | none => Except.error ("local variable referenced before assignment")

/-- Embeds the assembly of `self.output_ops` at
`src/neighborhood_model.py` line 125, which references the local `weights`
unconditionally. -/
def neighborhoodOutputOps {τ : Type} (sparseMode : Bool)
    (sparseNormalized denseMasked denseNormalized : τ) : Except String (List τ) :=
  let locals := neighborhoodBuildLocals sparseMode sparseNormalized
    denseMasked denseNormalized
  match readLocal locals.weights with
  | Except.ok w => Except.ok [locals.flow_weight_pred, w]
  | Except.error e => Except.error e

/-- C10: with the sparse representation configured, assembling the output
operations of `NeighborhoodModel.build` (the `src/neighborhood_model.py`
variant) raises an unbound-local error, because the local `weights` is
assigned only in the dense branch yet referenced unconditionally; in dense
mode the same statement succeeds. -/
theorem sparse_build_unbound_weights {τ : Type}
    (sparseNormalized denseMasked denseNormalized : τ) :
    neighborhoodOutputOps true sparseNormalized denseMasked denseNormalized
      = Except.error ("local variable referenced before assignment")
    ∧ neighborhoodOutputOps false sparseNormalized denseMasked denseNormalized
      = Except.ok [denseNormalized, denseMasked] :=
  ⟨rfl, rfl⟩

end GraphPrimalDual
